import Mathlib

/-!
Verification development for the node-identity and span-interning engine of
`bracketlint` (`crates/bl_ast/src/ast.rs`).

Modelling conventions:
* Machine integers (`u32` node ids, `usize` indices/offsets) are modelled as
  `Nat`; the counter is nowhere near overflow in any statement below.
* The global `SPAN_MAP : RwLock<Vec<Span>>` together with the global
  `AST_COUNTER` is modelled as an explicit state `AstState` threaded through
  the operations; locking is dropped, each critical section becomes one pure
  state transition.
* A Rust panic (an out-of-bounds `Vec` index, a `debug_assert!` failure) is
  modelled as `Except.error` carrying a `PanicKind`; these model aborts, not
  recoverable `Result` values.
-/

/-- Modelled from the spec: `SourceId` lives in `location.rs`, which is not in
the sources. The spec calls it "an opaque source-file identity" with a default
value; we model it as `Nat` with default `0`. -/
abbrev SourceId := Nat

/-- Modelled from the spec: `ByteRange` lives in `location.rs`, which is not in
the sources. The spec describes it as a byte range `[start, end)`;
`ByteRange::new(start, end)` is its constructor. -/
structure ByteRange where
  start : Nat
  «end» : Nat
deriving DecidableEq

/-- Constructor mirroring `ByteRange::new`. -/
def ByteRange.new (start «end» : Nat) : ByteRange :=
  ⟨start, «end»⟩

/-- Modelled from the spec: `Span` lives in `location.rs`, which is not in the
sources. Per the spec it is "a byte range `[start, end)` plus an opaque
source-file identity"; `ast.rs` accesses the source identity as the field
`id` (see `SpanMap::source_of`). -/
structure Span where
  range : ByteRange
  id : SourceId
deriving DecidableEq

/-- Constructor mirroring `Span::new(range, id)`. -/
def Span.new (range : ByteRange) (id : SourceId) : Span :=
  ⟨range, id⟩

/-- Modelled from the spec: the null span is "the sentinel `[0,0)` tagged with
the default source identity", matching the initial `SPAN_MAP` entry
`Span::new(ByteRange::new(0, 0), SourceId::default())`. -/
def Span.null : Span :=
  ⟨⟨0, 0⟩, 0⟩

/-- Modelled from the spec: `Span::join` lives in `location.rs`, which is not
in the sources. Per the spec the join of two spans is "the union of the spans
being merged (min start, max end) and requires equal source identities" —
"violating this is undefined/asserted behavior". `none` models the assertion
failing on mismatched source identities. -/
def Span.join (a b : Span) : Option Span :=
  if a.id = b.id then
    some ⟨⟨min a.range.start b.range.start, max a.range.«end» b.range.«end»⟩, a.id⟩
  else
    none

/-- Kinds of panics (process aborts) the modelled operations can raise. -/
inductive PanicKind where
  /-- An out-of-bounds `Vec` index. -/
  | indexOutOfBounds
  /-- The `debug_assert_ne!(span, Span::null())` in `SpanMap::span_of`. -/
  | nullSpanAssert
  /-- The asserted source-identity equality inside `Span::join`. -/
  | sourceMismatch
deriving DecidableEq

/-- The global mutable state of the subsystem: the `SPAN_MAP` vector and the
`AST_COUNTER` value (the last identity issued; `0` means none issued yet). -/
structure AstState where
  spans : List Span
  counter : Nat
deriving DecidableEq

/-- Initial state: `SPAN_MAP` is created holding exactly the null span (index
`0`), and no identity has been issued yet. -/
def AstState.init : AstState :=
  ⟨[Span.null], 0⟩

/-- An `AstNodeId` is an index into the span table. -/
abbrev AstNodeId := Nat

/-- Mirrors `AstNodeId::null()`, i.e. `AstNodeId::from(0)`. -/
def AstNodeId.null : Nat := 0

/-- Modelled from the spec: `AstNodeId::new` comes from the `counter!` macro in
`bl_utils/src/counter.rs`, which is not in the sources. Per the spec the
allocator's `next()` is a monotonic counter that "never returns a previously
issued value" and never returns the null identity `0`: each call bumps the
counter and returns the bumped value. -/
def AstNodeId.new (s : AstState) : Nat × AstState :=
  (s.counter + 1, ⟨s.spans, s.counter + 1⟩)

/-- Mirrors `LocalSpanMap`: a per-worker list of `(AstNodeId, ByteRange)`
pairs plus the worker's source. -/
structure LocalSpanMap where
  map : List (Nat × ByteRange)
  source : SourceId
deriving DecidableEq

/-- Mirrors `LocalSpanMap::new`. -/
def LocalSpanMap.new (source : SourceId) : LocalSpanMap :=
  ⟨[], source⟩

/-- Mirrors `LocalSpanMap::add`: issue a fresh id and push `(id, range)`. -/
def LocalSpanMap.add (l : LocalSpanMap) (range : ByteRange) (s : AstState) :
    Nat × LocalSpanMap × AstState :=
  let (id, s') := AstNodeId.new s
  (id, ⟨l.map ++ [(id, range)], l.source⟩, s')

/-- Mirrors `LocalSpanMap::len`. -/
def LocalSpanMap.len (l : LocalSpanMap) : Nat :=
  l.map.length

/-- Mirrors `SpanMap::span_of`: index the table (panicking when out of
bounds), then `debug_assert_ne!(span, Span::null())`. -/
def SpanMap.span_of (spans : List Span) (id : Nat) : Except PanicKind Span :=
  match spans[id]? with
  | none => .error .indexOutOfBounds
  | some sp => if sp = Span.null then .error .nullSpanAssert else .ok sp

/-- Mirrors `SpanMap::extend_map`: grow the table with null spans so that
index `id` exists; `(id + 1).saturating_sub(len)` is `Nat` subtraction. -/
def SpanMap.extend_map (spans : List Span) (id : Nat) : List Span :=
  spans ++ List.replicate (id + 1 - spans.length) Span.null

/-- Mirrors `SpanMap::add_span`: issue a fresh id, extend the table to cover
it, and write the span at that index. -/
def SpanMap.add_span (span : Span) (s : AstState) : Nat × AstState :=
  let (id, s') := AstNodeId.new s
  (id, ⟨(SpanMap.extend_map s'.spans id).set id span, s'.counter⟩)

/-- Mirrors `SpanMap::update_span`: `SPAN_MAP.write()[id] = span`, which
panics when `id` is out of bounds and never grows the table. -/
def SpanMap.update_span (id : Nat) (span : Span) (spans : List Span) :
    Except PanicKind (List Span) :=
  if id < spans.length then .ok (spans.set id span) else .error .indexOutOfBounds

/-- The write loop inside `SpanMap::add_local_map`:
`for (id, range) in local.map { writer[id] = Span::new(range, source); }`,
where each indexed write panics when out of bounds. -/
def SpanMap.writeLocal (source : SourceId) (entries : List (Nat × ByteRange))
    (spans : List Span) : Except PanicKind (List Span) :=
  match entries with
  | [] => .ok spans
  | (id, range) :: rest =>
    if id < spans.length then
      SpanMap.writeLocal source rest (spans.set id (Span.new range source))
    else
      .error .indexOutOfBounds

/-- Mirrors `SpanMap::add_local_map`: return unchanged on an empty buffer,
otherwise extend the table once to cover the last entry's id and write every
`(id, range)` pair as `Span::new(range, local.source)`. -/
def SpanMap.add_local_map (lm : LocalSpanMap) (spans : List Span) :
    Except PanicKind (List Span) :=
  match lm.map.getLast? with
  | none => .ok spans
  | some (key, _) =>
    SpanMap.writeLocal lm.source lm.map (SpanMap.extend_map spans key)

/-- Mirrors `AstNode<T>`: a payload plus its id. -/
structure AstNode (T : Type) where
  body : T
  id : Nat
deriving DecidableEq

/-- Mirrors `AstNodes<T>`: the nodes plus the synthetic bracketing id. -/
structure AstNodes (T : Type) where
  nodes : List (AstNode T)
  id : Nat
deriving DecidableEq

/-- Mirrors `AstNodes::new`: intern the span for a fresh synthetic id. -/
def AstNodes.new {T : Type} (nodes : List (AstNode T)) (span : Span) (s : AstState) :
    AstNodes T × AstState :=
  let (id, s') := SpanMap.add_span span s
  (⟨nodes, id⟩, s')

/-- Mirrors `AstNodes::with_id`. -/
def AstNodes.with_id {T : Type} (nodes : List (AstNode T)) (id : Nat) : AstNodes T :=
  ⟨nodes, id⟩

/-- Mirrors `AstNodes::span`: resolve the synthetic id through the table. -/
def AstNodes.span {T : Type} (a : AstNodes T) (spans : List Span) : Except PanicKind Span :=
  SpanMap.span_of spans a.id

/-- Mirrors `AstNodes::set_span`: `SpanMap::update_span(self.id, span)`. -/
def AstNodes.set_span {T : Type} (a : AstNodes T) (span : Span) (spans : List Span) :
    Except PanicKind (List Span) :=
  SpanMap.update_span a.id span spans

/-- Mirrors `AstNodes::insert`: `self.nodes.insert(index, item)`, which panics
when `index > len`. -/
def AstNodes.insert {T : Type} (a : AstNodes T) (item : AstNode T) (index : Nat) :
    Except PanicKind (AstNodes T) :=
  if index ≤ a.nodes.length then
    .ok ⟨a.nodes.insertIdx index item, a.id⟩
  else
    .error .indexOutOfBounds

/-- Mirrors `AstNodes::merge`:
`self.set_span(self.span().join(other.span())); self.nodes.extend(other.nodes)`. -/
def AstNodes.merge {T : Type} (a other : AstNodes T) (spans : List Span) :
    Except PanicKind (AstNodes T × List Span) :=
  match a.span spans with
  | .error e => .error e
  | .ok sa =>
    match other.span spans with
    | .error e => .error e
    | .ok sb =>
      match Span.join sa sb with
      | none => .error .sourceMismatch
      | some j =>
        match SpanMap.update_span a.id j spans with
        | .error e => .error e
        | .ok spans' => .ok (⟨a.nodes ++ other.nodes, a.id⟩, spans')

/-- A sequence of `LocalSpanMap::add` calls: reserve one id per range, in
order, returning the issued ids, the grown buffer and the final state. -/
def reserveAll (ranges : List ByteRange) (l : LocalSpanMap) (s : AstState) :
    List Nat × LocalSpanMap × AstState :=
  match ranges with
  | [] => ([], l, s)
  | r :: rs =>
    let (id, l', s') := l.add r s
    let (ids, l'', s'') := reserveAll rs l' s'
    (id :: ids, l'', s'')

/-- The stream of ids issued by `n` successive `AstNodeId::new` calls. -/
def allocIds (s : AstState) : Nat → List Nat
  | 0 => []
  | n + 1 =>
    let (id, s') := AstNodeId.new s
    id :: allocIds s' n

/-- Mirrors `Hunk::create`: `SpanMap::add_span(span)`. -/
def Hunk.create (span : Span) (s : AstState) : Nat × AstState :=
  SpanMap.add_span span s

/-- Mirrors `AstNodeId::span`: `SpanMap::span_of(*self)`. -/
def AstNodeId.span (id : Nat) (spans : List Span) : Except PanicKind Span :=
  SpanMap.span_of spans id

/-- Decidable equality for `Except`, so concrete runs can be checked with
`decide`. -/
def exceptDecEq {ε α : Type} [DecidableEq ε] [DecidableEq α] :
    DecidableEq (Except ε α) := fun x y =>
  match x, y with
  | .error e, .error e' =>
    if h : e = e' then .isTrue (by rw [h]) else .isFalse (fun c => h (Except.error.inj c))
  | .error _, .ok _ => .isFalse (fun c => Except.noConfusion c)
  | .ok _, .error _ => .isFalse (fun c => Except.noConfusion c)
  | .ok a, .ok a' =>
    if h : a = a' then .isTrue (by rw [h]) else .isFalse (fun c => h (Except.ok.inj c))

instance {ε α : Type} [DecidableEq ε] [DecidableEq α] : DecidableEq (Except ε α) :=
  exceptDecEq

/-- An operation against the shared state, as named by the spec: `record`
(`SpanMap::add_span`, also reached through `Hunk::create` and
`AstNodes::new`) or a reserve-then-commit of a whole buffer
(`LocalSpanMap::add` calls followed by `SpanMap::add_local_map`). -/
inductive AstOp where
  | record (span : Span)
  | commit (ranges : List ByteRange) (src : SourceId)

/-- Apply one operation to the shared state. A commit that would panic leaves
the table as it was (the panic aborts before any out-of-bounds write). -/
def applyOp (s : AstState) : AstOp → AstState
  | .record span => (SpanMap.add_span span s).2
  | .commit ranges src =>
    let res := reserveAll ranges (LocalSpanMap.new src) s
    match SpanMap.add_local_map res.2.1 res.2.2.spans with
    | .ok spans' => ⟨spans', res.2.2.counter⟩
    | .error _ => res.2.2

/-- Apply a sequence of operations, oldest first. -/
def applyOps (s : AstState) (ops : List AstOp) : AstState :=
  ops.foldl applyOp s

/-! ### Basic lemmas about the span table primitives -/

/-- Unfolding of a successful `span_of`: the table holds the span at that
index and the span is not the null sentinel. -/
theorem SpanMap.span_of_eq_ok_iff {spans : List Span} {id : Nat} {sp : Span} :
    SpanMap.span_of spans id = .ok sp ↔ spans[id]? = some sp ∧ sp ≠ Span.null := by
  cases h : spans[id]? with
  | none => simp [SpanMap.span_of, h]
  | some sp' =>
    have hm : SpanMap.span_of spans id =
        if sp' = Span.null then .error .nullSpanAssert else .ok sp' := by
      simp [SpanMap.span_of, h]
    rw [hm]
    by_cases hn : sp' = Span.null
    · subst hn
      rw [if_pos rfl]
      constructor
      · intro hok
        exact Except.noConfusion hok
      · rintro ⟨hc, hns⟩
        cases Option.some.inj hc
        exact absurd rfl hns
    · rw [if_neg hn]
      constructor
      · intro hok
        cases Except.ok.inj hok
        exact ⟨rfl, hn⟩
      · rintro ⟨hc, _⟩
        cases Option.some.inj hc
        rfl

/-- Length of `extend_map`: the maximum of the old length and `id + 1`. -/
theorem SpanMap.length_extend_map (spans : List Span) (id : Nat) :
    (SpanMap.extend_map spans id).length = max spans.length (id + 1) := by
  simp [SpanMap.extend_map]
  omega

/-- `extend_map` preserves every existing entry. -/
theorem SpanMap.getElem?_extend_map_lt {spans : List Span} {j : Nat}
    (h : j < spans.length) (id : Nat) :
    (SpanMap.extend_map spans id)[j]? = spans[j]? :=
  List.getElem?_append_left h

/-- `extend_map` fills every newly created slot with the null span. -/
theorem SpanMap.getElem?_extend_map_ge {spans : List Span} {j : Nat}
    (h : spans.length ≤ j) {id : Nat} (h' : j < id + 1) :
    (SpanMap.extend_map spans id)[j]? = some Span.null := by
  unfold SpanMap.extend_map
  rw [List.getElem?_append_right h, List.getElem?_replicate]
  rw [if_pos (by omega)]

/-- Indexing a zip of two lists at a position where both are defined. -/
theorem getElem?_zip_of_getElem? {α β : Type} :
    ∀ {l₁ : List α} {l₂ : List β} {i : Nat} {a : α} {b : β},
      l₁[i]? = some a → l₂[i]? = some b → (l₁.zip l₂)[i]? = some (a, b)
  | [], _, i, _, _, h₁, _ => by simp at h₁
  | _ :: _, [], i, _, _, _, h₂ => by simp at h₂
  | x :: l₁, y :: l₂, 0, a, b, h₁, h₂ => by
    simp only [List.getElem?_cons_zero] at h₁ h₂
    cases Option.some.inj h₁
    cases Option.some.inj h₂
    simp [List.zip_cons_cons]
  | x :: l₁, y :: l₂, i + 1, a, b, h₁, h₂ => by
    simpa using @getElem?_zip_of_getElem? α β l₁ l₂ i a b (by simpa using h₁)
      (by simpa using h₂)

/-- The `add_local_map` write loop succeeds when every id is in bounds and the
ids are strictly increasing; it preserves the length, leaves untouched indices
unchanged, and ends with each entry's span stored at the entry's id. -/
theorem SpanMap.writeLocal_spec (src : SourceId) :
    ∀ (entries : List (Nat × ByteRange)) (spans : List Span),
      (∀ e ∈ entries, e.1 < spans.length) →
      List.Pairwise (fun (e e' : Nat × ByteRange) => e.1 < e'.1) entries →
      ∃ spans', SpanMap.writeLocal src entries spans = .ok spans' ∧
        spans'.length = spans.length ∧
        (∀ j : Nat, (∀ e ∈ entries, e.1 ≠ j) → spans'[j]? = spans[j]?) ∧
        (∀ e ∈ entries, spans'[e.1]? = some (Span.new e.2 src))
  | [], spans, _, _ => ⟨spans, rfl, rfl, fun _ _ => rfl, by simp⟩
  | (id, r) :: rest, spans, hlt, hpw => by
    have hid : id < spans.length := hlt (id, r) (by simp)
    have hrest : ∀ e ∈ rest, e.1 < (spans.set id (Span.new r src)).length := by
      intro e he
      rw [List.length_set]
      exact hlt e (List.mem_cons_of_mem _ he)
    obtain ⟨spans', hok, hlen, hframe, hvals⟩ :=
      SpanMap.writeLocal_spec src rest (spans.set id (Span.new r src)) hrest hpw.of_cons
    have hgt : ∀ e ∈ rest, id < e.1 := fun e he => (List.pairwise_cons.mp hpw).1 e he
    refine ⟨spans', ?_, ?_, ?_, ?_⟩
    · unfold SpanMap.writeLocal
      rw [if_pos hid]
      exact hok
    · rw [hlen, List.length_set]
    · intro j hj
      rw [hframe j fun e he => hj e (List.mem_cons_of_mem _ he)]
      rw [List.getElem?_set_ne (hj (id, r) (by simp))]
    · intro e he
      rcases List.mem_cons.mp he with heq | hmem
      · subst heq
        rw [hframe id fun e' he' => Nat.ne_of_gt (hgt e' he')]
        exact List.getElem?_set_self hid
      · exact hvals e hmem

/-- Frame property of the write loop: a successful run leaves every index that
no entry names unchanged. -/
theorem SpanMap.writeLocal_frame (src : SourceId) :
    ∀ (entries : List (Nat × ByteRange)) (spans spans' : List Span),
      SpanMap.writeLocal src entries spans = .ok spans' →
      ∀ j : Nat, (∀ e ∈ entries, e.1 ≠ j) → spans'[j]? = spans[j]?
  | [], spans, spans', hok, j, _ => by
    cases Except.ok.inj hok
    rfl
  | (id, r) :: rest, spans, spans', hok, j, hj => by
    unfold SpanMap.writeLocal at hok
    by_cases hid : id < spans.length
    · rw [if_pos hid] at hok
      rw [SpanMap.writeLocal_frame src rest _ spans' hok j
        fun e he => hj e (List.mem_cons_of_mem _ he)]
      rw [List.getElem?_set_ne (hj (id, r) (by simp))]
    · rw [if_neg hid] at hok
      exact Except.noConfusion hok

/-- Characterization of a run of `LocalSpanMap::add` calls: the issued ids are
the consecutive block following the incoming counter, the buffer grows by the
zip of those ids with the requested ranges, the source is untouched, and the
state only advances its counter. -/
theorem reserveAll_spec :
    ∀ (ranges : List ByteRange) (l : LocalSpanMap) (s : AstState),
      (reserveAll ranges l s).1 = List.range' (s.counter + 1) ranges.length ∧
      (reserveAll ranges l s).2.1.map =
        l.map ++ (List.range' (s.counter + 1) ranges.length).zip ranges ∧
      (reserveAll ranges l s).2.1.source = l.source ∧
      (reserveAll ranges l s).2.2 = ⟨s.spans, s.counter + ranges.length⟩
  | [], l, s => by simp [reserveAll]
  | r :: rs, l, s => by
    obtain ⟨h1, h2, h3, h4⟩ :=
      reserveAll_spec rs ⟨l.map ++ [(s.counter + 1, r)], l.source⟩
        ⟨s.spans, s.counter + 1⟩
    refine ⟨?_, ?_, ?_, ?_⟩
    · simp only [reserveAll, LocalSpanMap.add, AstNodeId.new, List.length_cons,
        List.range'_succ]
      rw [h1]
    · simp only [reserveAll, LocalSpanMap.add, AstNodeId.new, List.length_cons,
        List.range'_succ]
      rw [h2]
      simp [List.zip]
    · simp only [reserveAll, LocalSpanMap.add, AstNodeId.new]
      rw [h3]
    · simp only [reserveAll, LocalSpanMap.add, AstNodeId.new, List.length_cons]
      rw [h4]
      simp only [AstState.mk.injEq]
      refine ⟨trivial, ?_⟩
      dsimp only
      omega

/-- The allocation stream from state `s` is the consecutive block of ids
following `s.counter`. -/
theorem allocIds_eq_range' : ∀ (n : Nat) (s : AstState),
    allocIds s n = List.range' (s.counter + 1) n
  | 0, _ => rfl
  | n + 1, s => by
    simp only [allocIds, AstNodeId.new, List.range'_succ]
    rw [allocIds_eq_range' n ⟨s.spans, s.counter + 1⟩]

/-- The ids of a freshly reserved buffer, as a list. -/
theorem local_map_fst (ranges : List ByteRange) (src : SourceId) (s : AstState) :
    (reserveAll ranges (LocalSpanMap.new src) s).2.1.map.map Prod.fst =
      List.range' (s.counter + 1) ranges.length := by
  obtain ⟨-, h2, -, -⟩ := reserveAll_spec ranges (LocalSpanMap.new src) s
  rw [h2]
  simp only [LocalSpanMap.new, List.nil_append]
  exact List.map_fst_zip _ _ (by simp)

/-- The entries of a freshly reserved buffer carry strictly increasing ids. -/
theorem local_map_pairwise (ranges : List ByteRange) (src : SourceId) (s : AstState) :
    List.Pairwise (fun (e e' : Nat × ByteRange) => e.1 < e'.1)
      (reserveAll ranges (LocalSpanMap.new src) s).2.1.map := by
  have h := List.pairwise_lt_range' (s.counter + 1) ranges.length
  rw [← local_map_fst ranges src s] at h
  exact List.pairwise_map.mp h

/-- The last entry of a freshly reserved nonempty buffer carries the largest
reserved id. -/
theorem local_map_getLast_max (ranges : List ByteRange) (src : SourceId) (s : AstState)
    (key : Nat) (r : ByteRange)
    (hlast : (reserveAll ranges (LocalSpanMap.new src) s).2.1.map.getLast? = some (key, r)) :
    ∀ e ∈ (reserveAll ranges (LocalSpanMap.new src) s).2.1.map, e.1 ≤ key := by
  intro e he
  have hfst := local_map_fst ranges src s
  have hmem : e.1 ∈ List.range' (s.counter + 1) ranges.length := by
    rw [← hfst]
    exact List.mem_map_of_mem Prod.fst he
  cases ranges with
  | nil =>
    simp [reserveAll_spec, reserveAll, LocalSpanMap.new] at he
  | cons r0 rs =>
    have hklast : (List.range' (s.counter + 1) (r0 :: rs).length).getLast? =
        some (s.counter + 1 + (r0 :: rs).length - 1) := by
      rw [List.length_cons, List.range'_concat]
      rw [List.getLast?_concat]
      congr 1
      omega
    have hgm := List.getLast?_map Prod.fst
      (reserveAll (r0 :: rs) (LocalSpanMap.new src) s).2.1.map
    rw [hfst, hlast, hklast] at hgm
    have hk : key = s.counter + 1 + (r0 :: rs).length - 1 := by
      simp only [Option.map_some'] at hgm
      exact (Option.some.inj hgm).symm
    rcases List.mem_range'_1.mp hmem with ⟨-, hub⟩
    omega

/-- A freshly reserved buffer always commits successfully, and afterwards the
table holds, at each reserved id, exactly the reserved range tagged with the
buffer's source. -/
theorem reserve_commit_ok (ranges : List ByteRange) (src : SourceId) (s : AstState)
    (spans : List Span) :
    ∃ spans',
      SpanMap.add_local_map (reserveAll ranges (LocalSpanMap.new src) s).2.1 spans =
        .ok spans' ∧
      (∀ j : Nat, j < spans.length → j ≤ s.counter →
        spans'[j]? = spans[j]?) ∧
      (∀ e ∈ (reserveAll ranges (LocalSpanMap.new src) s).2.1.map,
        spans'[e.1]? = some (Span.new e.2 src)) := by
  obtain ⟨-, h2, h3, -⟩ := reserveAll_spec ranges (LocalSpanMap.new src) s
  cases hlast : (reserveAll ranges (LocalSpanMap.new src) s).2.1.map.getLast? with
  | none =>
    refine ⟨spans, ?_, fun j _ _ => rfl, ?_⟩
    · unfold SpanMap.add_local_map
      rw [hlast]
    · intro e he
      rw [List.getLast?_eq_none_iff.mp hlast] at he
      cases he
  | some e0 =>
    obtain ⟨key, r0⟩ := e0
    have hmax := local_map_getLast_max ranges src s key r0 hlast
    have hbound : ∀ e ∈ (reserveAll ranges (LocalSpanMap.new src) s).2.1.map,
        e.1 < (SpanMap.extend_map spans key).length := by
      intro e he
      have h1 := hmax e he
      have h2 : key < (SpanMap.extend_map spans key).length := by
        simp [SpanMap.extend_map]
        omega
      omega
    obtain ⟨spans', hok, hlen, hframe, hvals⟩ :=
      SpanMap.writeLocal_spec src _ (SpanMap.extend_map spans key) hbound
        (local_map_pairwise ranges src s)
    refine ⟨spans', ?_, ?_, hvals⟩
    · unfold SpanMap.add_local_map
      rw [hlast, h3]
      exact hok
    · intro j hjlen hjc
      have hfst := local_map_fst ranges src s
      rw [hframe j ?_, SpanMap.getElem?_extend_map_lt hjlen]
      intro e he heq
      have hmem : e.1 ∈ List.range' (s.counter + 1) ranges.length := by
        rw [← hfst]
        exact List.mem_map_of_mem Prod.fst he
      rcases List.mem_range'_1.mp hmem with ⟨hlb, -⟩
      omega

/-- Joining two non-null spans with equal source identities never yields the
null span. -/
theorem Span.join_ne_null {a b : Span} (ha : a ≠ Span.null) (hb : b ≠ Span.null)
    (hid : a.id = b.id) :
    Span.new (ByteRange.new (min a.range.start b.range.start)
      (max a.range.«end» b.range.«end»)) a.id ≠ Span.null := by
  intro h
  have h1 : a.id = 0 := congrArg Span.id h
  have h2 : min a.range.start b.range.start = 0 :=
    congrArg (fun sp => sp.range.start) h
  have h3 : max a.range.«end» b.range.«end» = 0 :=
    congrArg (fun sp => sp.range.«end») h
  rcases Nat.max_eq_zero_iff.mp h3 with ⟨hae, hbe⟩
  rcases Nat.min_eq_zero_iff.mp h2 with has | hbs
  · apply ha
    cases a with
    | mk r i =>
      cases r with
      | mk st en =>
        simp_all [Span.null, Span.mk.injEq, ByteRange.mk.injEq]
  · apply hb
    cases b with
    | mk r i =>
      cases r with
      | mk st en =>
        simp_all [Span.null, Span.mk.injEq, ByteRange.mk.injEq]

/-- Full behaviour of `AstNodes::merge` on two lists whose spans resolve and
share a source identity: it succeeds, appends the nodes, keeps the first
list's id, and stores the union span at that id, where it then resolves. -/
theorem AstNodes.merge_spec {T : Type} (a b : AstNodes T) (spans : List Span)
    (sa sb : Span) (ha : a.span spans = .ok sa) (hb : b.span spans = .ok sb)
    (hid : sa.id = sb.id) :
    a.merge b spans = .ok (⟨a.nodes ++ b.nodes, a.id⟩,
      spans.set a.id (Span.new (ByteRange.new (min sa.range.start sb.range.start)
        (max sa.range.«end» sb.range.«end»)) sa.id)) ∧
    SpanMap.span_of (spans.set a.id (Span.new (ByteRange.new
        (min sa.range.start sb.range.start)
        (max sa.range.«end» sb.range.«end»)) sa.id)) a.id =
      .ok (Span.new (ByteRange.new (min sa.range.start sb.range.start)
        (max sa.range.«end» sb.range.«end»)) sa.id) := by
  obtain ⟨hget, hnn⟩ := SpanMap.span_of_eq_ok_iff.mp ha
  obtain ⟨hgetb, hnnb⟩ := SpanMap.span_of_eq_ok_iff.mp hb
  obtain ⟨hlt, -⟩ := List.getElem?_eq_some_iff.mp hget
  have hjoin : Span.join sa sb =
      some (Span.new (ByteRange.new (min sa.range.start sb.range.start)
        (max sa.range.«end» sb.range.«end»)) sa.id) := by
    unfold Span.join
    rw [if_pos hid]
    rfl
  have hupd : SpanMap.update_span a.id
      (Span.new (ByteRange.new (min sa.range.start sb.range.start)
        (max sa.range.«end» sb.range.«end»)) sa.id) spans =
      .ok (spans.set a.id (Span.new (ByteRange.new
        (min sa.range.start sb.range.start)
        (max sa.range.«end» sb.range.«end»)) sa.id)) := by
    unfold SpanMap.update_span
    rw [if_pos hlt]
  constructor
  · unfold AstNodes.merge
    simp only [ha, hb, hjoin, hupd]
  · apply SpanMap.span_of_eq_ok_iff.mpr
    constructor
    · exact List.getElem?_set_self hlt
    · exact Span.join_ne_null hnn hnnb hid

/-- Index `0` of the table keeps holding the null span across any single
operation. -/
theorem applyOp_preserves_null_entry (s : AstState) (op : AstOp)
    (h : s.spans[0]? = some Span.null) :
    (applyOp s op).spans[0]? = some Span.null := by
  have hpos : 0 < s.spans.length := by
    obtain ⟨hl, -⟩ := List.getElem?_eq_some_iff.mp h
    exact hl
  cases op with
  | record span =>
    show ((SpanMap.extend_map s.spans (s.counter + 1)).set (s.counter + 1) span)[0]? =
      some Span.null
    rw [List.getElem?_set_ne (by omega)]
    rw [SpanMap.getElem?_extend_map_lt hpos]
    exact h
  | commit ranges src =>
    simp only [applyOp]
    obtain ⟨-, -, -, h4⟩ := reserveAll_spec ranges (LocalSpanMap.new src) s
    cases hres : SpanMap.add_local_map (reserveAll ranges (LocalSpanMap.new src) s).2.1
        (reserveAll ranges (LocalSpanMap.new src) s).2.2.spans with
    | error e =>
      rw [h4]
      exact h
    | ok spans' =>
      cases hlast : (reserveAll ranges (LocalSpanMap.new src) s).2.1.map.getLast? with
      | none =>
        unfold SpanMap.add_local_map at hres
        rw [hlast] at hres
        cases Except.ok.inj hres
        rw [h4]
        exact h
      | some e0 =>
        obtain ⟨key, r0⟩ := e0
        unfold SpanMap.add_local_map at hres
        rw [hlast] at hres
        have hframe := SpanMap.writeLocal_frame _ _ _ _ hres 0 ?_
        · rw [hframe, h4]
          rw [SpanMap.getElem?_extend_map_lt]
          · exact h
          · exact hpos
        · intro e he
          have hmem : e.1 ∈ List.range' (s.counter + 1) ranges.length := by
            rw [← local_map_fst ranges src s]
            exact List.mem_map_of_mem Prod.fst he
          rcases List.mem_range'_1.mp hmem with ⟨hlb, -⟩
          omega

/-! ### Claim theorems -/

/-- C5: committing a `LocalSpanMap` that contains no entries
(`SpanMap::add_local_map` on an empty buffer) leaves the span table completely
unchanged — the result is the very same table, so its entry count and every
stored span are identical before and after the commit. -/
theorem claim_C5_commit_empty_buffer_noop (spans : List Span) (src : SourceId) :
    SpanMap.add_local_map ⟨[], src⟩ spans = .ok spans ∧
    SpanMap.add_local_map (LocalSpanMap.new src) spans = .ok spans :=
  ⟨rfl, rfl⟩

/-- C2: for every identity whose stored span-table entry is the null span,
`SpanMap::span_of` fails with the assertion-class `nullSpanAssert` failure —
it never returns a value — and so do the `span()` wrappers
(`AstNodeId::span`, `AstNodes::span`) that call it. -/
theorem claim_C2_null_entry_get_asserts (spans : List Span) (id : Nat)
    (h : spans[id]? = some Span.null) :
    SpanMap.span_of spans id = .error .nullSpanAssert ∧
    (∀ sp : Span, SpanMap.span_of spans id ≠ .ok sp) ∧
    AstNodeId.span id spans = .error .nullSpanAssert ∧
    (∀ nodes : List (AstNode Unit),
      AstNodes.span ⟨nodes, id⟩ spans = .error .nullSpanAssert) := by
  have hmain : SpanMap.span_of spans id = .error .nullSpanAssert := by
    simp [SpanMap.span_of, h]
  exact ⟨hmain, fun sp hc => Except.noConfusion (hmain.symm.trans hc), hmain,
    fun nodes => hmain⟩

/-- Witness for C2 at the initial table, whose entry `0` is the null span. -/
theorem claim_C2_witness :
    SpanMap.span_of [Span.null] 0 = .error .nullSpanAssert ∧
    (∀ sp : Span, SpanMap.span_of [Span.null] 0 ≠ .ok sp) ∧
    AstNodeId.span 0 [Span.null] = .error .nullSpanAssert ∧
    (∀ nodes : List (AstNode Unit),
      AstNodes.span ⟨nodes, 0⟩ [Span.null] = .error .nullSpanAssert) :=
  claim_C2_null_entry_get_asserts [Span.null] 0 rfl

/-- C8: for every identity at or beyond the table's length — in particular a
freshly reserved id before its buffer is committed — `SpanMap::span_of` and
`SpanMap::update_span` (hence `AstNodes::set_span`) panic with an
out-of-bounds index: no value is read, no table is returned, nothing grows. -/
theorem claim_C8_out_of_bounds_id_panics :
    (∀ (spans : List Span) (id : Nat) (sp : Span), spans.length ≤ id →
      SpanMap.span_of spans id = .error .indexOutOfBounds ∧
      SpanMap.update_span id sp spans = .error .indexOutOfBounds) ∧
    (∀ (T : Type) (a : AstNodes T) (sp : Span) (spans : List Span),
      spans.length ≤ a.id →
      a.set_span sp spans = .error .indexOutOfBounds) ∧
    (∀ (s : AstState) (l : LocalSpanMap) (r : ByteRange),
      s.spans.length ≤ s.counter + 1 →
      (l.add r s).2.2.spans = s.spans ∧
      SpanMap.span_of (l.add r s).2.2.spans (l.add r s).1 =
        .error .indexOutOfBounds ∧
      (∀ sp : Span, SpanMap.update_span (l.add r s).1 sp (l.add r s).2.2.spans =
        .error .indexOutOfBounds)) := by
  have hspan : ∀ (spans : List Span) (id : Nat), spans.length ≤ id →
      SpanMap.span_of spans id = .error .indexOutOfBounds := by
    intro spans id hle
    simp [SpanMap.span_of, List.getElem?_eq_none hle]
  have hupd : ∀ (spans : List Span) (id : Nat) (sp : Span), spans.length ≤ id →
      SpanMap.update_span id sp spans = .error .indexOutOfBounds := by
    intro spans id sp hle
    unfold SpanMap.update_span
    rw [if_neg (by omega)]
  refine ⟨fun spans id sp hle => ⟨hspan spans id hle, hupd spans id sp hle⟩,
    fun T a sp spans hle => hupd spans a.id sp hle,
    fun s l r hle => ⟨rfl, hspan s.spans (s.counter + 1) hle,
      fun sp => hupd s.spans (s.counter + 1) sp hle⟩⟩

/-- Witness for C8: the initial one-entry table with the never-issued id `1`,
and a reserve on the initial state whose id `1` is outside the table. -/
theorem claim_C8_witness :
    (SpanMap.span_of [Span.null] 1 = .error .indexOutOfBounds ∧
      SpanMap.update_span 1 Span.null [Span.null] = .error .indexOutOfBounds) ∧
    AstNodes.set_span (⟨[], 1⟩ : AstNodes Unit) Span.null [Span.null] =
      .error .indexOutOfBounds ∧
    ((LocalSpanMap.add (LocalSpanMap.new 0) (ByteRange.new 0 5)
        AstState.init).2.2.spans = AstState.init.spans ∧
      SpanMap.span_of
        (LocalSpanMap.add (LocalSpanMap.new 0) (ByteRange.new 0 5)
          AstState.init).2.2.spans
        (LocalSpanMap.add (LocalSpanMap.new 0) (ByteRange.new 0 5)
          AstState.init).1 = .error .indexOutOfBounds ∧
      (∀ sp : Span, SpanMap.update_span
        (LocalSpanMap.add (LocalSpanMap.new 0) (ByteRange.new 0 5)
          AstState.init).1 sp
        (LocalSpanMap.add (LocalSpanMap.new 0) (ByteRange.new 0 5)
          AstState.init).2.2.spans = .error .indexOutOfBounds)) :=
  ⟨claim_C8_out_of_bounds_id_panics.1 [Span.null] 1 Span.null (by decide),
    claim_C8_out_of_bounds_id_panics.2.1 Unit ⟨[], 1⟩ Span.null [Span.null]
      (by decide),
    claim_C8_out_of_bounds_id_panics.2.2 AstState.init (LocalSpanMap.new 0)
      (ByteRange.new 0 5) (by decide)⟩

/-- C6: the identity allocator's output stream from the initial state is
strictly increasing, never repeats, and never contains the null identity `0`;
and every construction path (`LocalSpanMap::add`, `SpanMap::add_span`,
`Hunk::create`, `AstNodes::new`) returns exactly the allocator's next id. -/
theorem claim_C6_allocator_strictly_increasing_nonnull :
    (∀ n : Nat, List.Pairwise (· < ·) (allocIds AstState.init n) ∧
      (allocIds AstState.init n).Nodup ∧
      AstNodeId.null ∉ allocIds AstState.init n) ∧
    (∀ (s : AstState) (l : LocalSpanMap) (r : ByteRange),
      (l.add r s).1 = (AstNodeId.new s).1) ∧
    (∀ (s : AstState) (sp : Span), (SpanMap.add_span sp s).1 = (AstNodeId.new s).1) ∧
    (∀ (s : AstState) (sp : Span), (Hunk.create sp s).1 = (AstNodeId.new s).1) ∧
    (∀ (T : Type) (nodes : List (AstNode T)) (sp : Span) (s : AstState),
      (AstNodes.new nodes sp s).1.id = (AstNodeId.new s).1) := by
  refine ⟨fun n => ?_, fun s l r => rfl, fun s sp => rfl, fun s sp => rfl,
    fun T nodes sp s => rfl⟩
  rw [allocIds_eq_range']
  refine ⟨List.pairwise_lt_range' _ _, List.nodup_range' _ _, fun hmem => ?_⟩
  rcases List.mem_range'_1.mp hmem with ⟨hlb, -⟩
  simp [AstState.init, AstNodeId.null] at hlb

/-- Witness for C6 on a concrete allocation run of length three. -/
theorem claim_C6_witness :
    List.Pairwise (· < ·) (allocIds AstState.init 3) ∧
    (allocIds AstState.init 3).Nodup ∧
    AstNodeId.null ∉ allocIds AstState.init 3 :=
  claim_C6_allocator_strictly_increasing_nonnull.1 3

/-- C10: the initial span table holds exactly one entry — the null span, a
`[0,0)` range on the default source, at index `0` — and across any sequence
of record and reserve/commit operations the null identity `0` keeps a table
entry holding the null span. -/
theorem claim_C10_null_id_always_null_entry :
    AstState.init.spans = [Span.null] ∧
    Span.null = Span.new (ByteRange.new 0 0) 0 ∧
    ∀ ops : List AstOp,
      (applyOps AstState.init ops).spans[AstNodeId.null]? = some Span.null := by
  have key : ∀ (ops : List AstOp) (s : AstState), s.spans[0]? = some Span.null →
      (applyOps s ops).spans[0]? = some Span.null := by
    intro ops
    induction ops with
    | nil => exact fun s h => h
    | cons op rest ih =>
      exact fun s h => ih (applyOp s op) (applyOp_preserves_null_entry s op h)
  exact ⟨rfl, rfl, fun ops => key ops AstState.init rfl⟩

/-- Witness for C10 on a concrete record followed by a reserve/commit. -/
theorem claim_C10_witness :
    (applyOps AstState.init
      [AstOp.record (Span.new (ByteRange.new 1 4) 2),
        AstOp.commit [ByteRange.new 0 5] 3]).spans[AstNodeId.null]? =
      some Span.null :=
  claim_C10_null_id_always_null_entry.2.2
    [AstOp.record (Span.new (ByteRange.new 1 4) 2),
      AstOp.commit [ByteRange.new 0 5] 3]

/-- C9: a buffer built by `LocalSpanMap::add` calls stores its entries in
strictly increasing id order, its last entry's id is the maximum, the single
`extend_map` growth in `SpanMap::add_local_map` (sized to that last id)
covers every entry's index, and consequently the commit always succeeds. -/
theorem claim_C9_buffer_increasing_commit_covered (s : AstState) (src : SourceId)
    (ranges : List ByteRange) (spans : List Span) :
    List.Pairwise (fun (e e' : Nat × ByteRange) => e.1 < e'.1)
      (reserveAll ranges (LocalSpanMap.new src) s).2.1.map ∧
    (∀ (key : Nat) (r : ByteRange),
      (reserveAll ranges (LocalSpanMap.new src) s).2.1.map.getLast? = some (key, r) →
      (∀ e ∈ (reserveAll ranges (LocalSpanMap.new src) s).2.1.map, e.1 ≤ key) ∧
      (∀ e ∈ (reserveAll ranges (LocalSpanMap.new src) s).2.1.map,
        e.1 < (SpanMap.extend_map spans key).length)) ∧
    ∃ spans', SpanMap.add_local_map
      (reserveAll ranges (LocalSpanMap.new src) s).2.1 spans = .ok spans' := by
  refine ⟨local_map_pairwise ranges src s, ?_, ?_⟩
  · intro key r hlast
    have hmax := local_map_getLast_max ranges src s key r hlast
    refine ⟨hmax, ?_⟩
    intro e he
    have h1 := hmax e he
    have h2 : key < (SpanMap.extend_map spans key).length := by
      simp [SpanMap.extend_map]
      omega
    omega
  · obtain ⟨spans', hok, -, -⟩ := reserve_commit_ok ranges src s spans
    exact ⟨spans', hok⟩

/-- Witness for C9 on two reserves against the initial table. -/
theorem claim_C9_witness :
    List.Pairwise (fun (e e' : Nat × ByteRange) => e.1 < e'.1)
      (reserveAll [ByteRange.new 0 5, ByteRange.new 5 10]
        (LocalSpanMap.new 3) AstState.init).2.1.map ∧
    (∀ (key : Nat) (r : ByteRange),
      (reserveAll [ByteRange.new 0 5, ByteRange.new 5 10]
        (LocalSpanMap.new 3) AstState.init).2.1.map.getLast? = some (key, r) →
      (∀ e ∈ (reserveAll [ByteRange.new 0 5, ByteRange.new 5 10]
        (LocalSpanMap.new 3) AstState.init).2.1.map, e.1 ≤ key) ∧
      (∀ e ∈ (reserveAll [ByteRange.new 0 5, ByteRange.new 5 10]
        (LocalSpanMap.new 3) AstState.init).2.1.map,
        e.1 < (SpanMap.extend_map [Span.null] key).length)) ∧
    ∃ spans', SpanMap.add_local_map
      (reserveAll [ByteRange.new 0 5, ByteRange.new 5 10]
        (LocalSpanMap.new 3) AstState.init).2.1 [Span.null] = .ok spans' :=
  claim_C9_buffer_increasing_commit_covered AstState.init 3
    [ByteRange.new 0 5, ByteRange.new 5 10] [Span.null]

/-- C1 (amended): after reserving a sequence of ranges in one buffer and
committing it (the commit always succeeds), every reserved id whose range
together with the buffer's source does not form the null sentinel span
resolves through `SpanMap::span_of` to exactly its reserved range tagged with
that source; a reserved id whose range and source do form the null sentinel
instead hits `span_of`'s null-span assertion (see the counterexample). -/
theorem claim_C1_reserve_commit_resolves (s : AstState) (src : SourceId)
    (ranges : List ByteRange) :
    ∃ spans',
      SpanMap.add_local_map (reserveAll ranges (LocalSpanMap.new src) s).2.1
        (reserveAll ranges (LocalSpanMap.new src) s).2.2.spans = .ok spans' ∧
      ∀ (i id : Nat) (r : ByteRange),
        (reserveAll ranges (LocalSpanMap.new src) s).1[i]? = some id →
        ranges[i]? = some r →
        (Span.new r src ≠ Span.null →
          SpanMap.span_of spans' id = .ok (Span.new r src)) ∧
        (Span.new r src = Span.null →
          SpanMap.span_of spans' id = .error .nullSpanAssert) := by
  obtain ⟨h1, h2, -, -⟩ := reserveAll_spec ranges (LocalSpanMap.new src) s
  obtain ⟨spans', hok, -, hvals⟩ := reserve_commit_ok ranges src s
    (reserveAll ranges (LocalSpanMap.new src) s).2.2.spans
  refine ⟨spans', hok, ?_⟩
  intro i id r hid hr
  have hmem : (id, r) ∈ (reserveAll ranges (LocalSpanMap.new src) s).2.1.map := by
    rw [h2]
    simp only [LocalSpanMap.new, List.nil_append]
    have hid' : (List.range' (s.counter + 1) ranges.length)[i]? = some id := by
      rw [← h1]
      exact hid
    exact List.getElem?_mem (getElem?_zip_of_getElem? hid' hr)
  have hval := hvals (id, r) hmem
  refine ⟨fun hnn => SpanMap.span_of_eq_ok_iff.mpr ⟨hval, hnn⟩, fun hnull => ?_⟩
  rw [hnull] at hval
  simp [SpanMap.span_of, hval]

/-- Counterexample to C1 as stated: reserving the range `[0,0)` in a buffer
whose source is the default source identity and committing stores the null
sentinel at the reserved id `1`, so `SpanMap::span_of` fails its null-span
assertion there instead of returning the reserved range. -/
theorem claim_C1_counterexample :
    (reserveAll [ByteRange.new 0 0] (LocalSpanMap.new 0) AstState.init).1 = [1] ∧
    SpanMap.add_local_map
      (reserveAll [ByteRange.new 0 0] (LocalSpanMap.new 0) AstState.init).2.1
      (reserveAll [ByteRange.new 0 0] (LocalSpanMap.new 0) AstState.init).2.2.spans =
      .ok [Span.null, Span.null] ∧
    SpanMap.span_of [Span.null, Span.null] 1 = .error .nullSpanAssert ∧
    ∀ sp : Span, SpanMap.span_of [Span.null, Span.null] 1 ≠ .ok sp := by
  have herr : SpanMap.span_of [Span.null, Span.null] 1 = .error .nullSpanAssert := rfl
  exact ⟨rfl, rfl, herr, fun sp hc => Except.noConfusion (herr.symm.trans hc)⟩

/-- Witness for the amended C1 on a mixed buffer whose first reserve forms
the null sentinel (`[0,0)` on the default source `0`) while its second, a
`[0,5)` range, does not: the commit succeeds and the per-call conclusions
cover both reserves. -/
theorem claim_C1_witness :
    ∃ spans',
      SpanMap.add_local_map
        (reserveAll [ByteRange.new 0 0, ByteRange.new 0 5]
          (LocalSpanMap.new 0) AstState.init).2.1
        (reserveAll [ByteRange.new 0 0, ByteRange.new 0 5]
          (LocalSpanMap.new 0) AstState.init).2.2.spans = .ok spans' ∧
      ∀ (i id : Nat) (r : ByteRange),
        (reserveAll [ByteRange.new 0 0, ByteRange.new 0 5]
          (LocalSpanMap.new 0) AstState.init).1[i]? = some id →
        [ByteRange.new 0 0, ByteRange.new 0 5][i]? = some r →
        (Span.new r 0 ≠ Span.null →
          SpanMap.span_of spans' id = .ok (Span.new r 0)) ∧
        (Span.new r 0 = Span.null →
          SpanMap.span_of spans' id = .error .nullSpanAssert) :=
  claim_C1_reserve_commit_resolves AstState.init 0
    [ByteRange.new 0 0, ByteRange.new 0 5]

/-- C3: merging two node lists whose resolved spans share a source identity
appends the other list's nodes after this list's nodes, keeps this list's own
identity, and stores at that identity the union span — minimum start, maximum
end — on the shared source. -/
theorem claim_C3_merge_appends_and_unions_span (T : Type) (a b : AstNodes T)
    (spans : List Span) (sa sb : Span)
    (ha : a.span spans = .ok sa) (hb : b.span spans = .ok sb)
    (hsrc : sa.id = sb.id) :
    ∃ spans', a.merge b spans = .ok (⟨a.nodes ++ b.nodes, a.id⟩, spans') ∧
      SpanMap.span_of spans' a.id = .ok (Span.new (ByteRange.new
        (min sa.range.start sb.range.start)
        (max sa.range.«end» sb.range.«end»)) sa.id) := by
  obtain ⟨h1, h2⟩ := AstNodes.merge_spec a b spans sa sb ha hb hsrc
  exact ⟨_, h1, h2⟩

/-- Witness for C3 on the spec's scenario: spans `(0,20)` and `(20,35)` on
source `7` merge to `(0,35)` on source `7`. -/
theorem claim_C3_witness :
    ∃ spans', AstNodes.merge (⟨[⟨(), 5⟩], 1⟩ : AstNodes Unit) ⟨[⟨(), 6⟩], 2⟩
        [Span.null, Span.new (ByteRange.new 0 20) 7,
          Span.new (ByteRange.new 20 35) 7] =
        .ok (⟨[⟨(), 5⟩] ++ [⟨(), 6⟩], 1⟩, spans') ∧
      SpanMap.span_of spans' 1 = .ok (Span.new (ByteRange.new
        (min (Span.new (ByteRange.new 0 20) 7).range.start
          (Span.new (ByteRange.new 20 35) 7).range.start)
        (max (Span.new (ByteRange.new 0 20) 7).range.«end»
          (Span.new (ByteRange.new 20 35) 7).range.«end»))
        (Span.new (ByteRange.new 0 20) 7).id) :=
  claim_C3_merge_appends_and_unions_span Unit ⟨[⟨(), 5⟩], 1⟩ ⟨[⟨(), 6⟩], 2⟩
    [Span.null, Span.new (ByteRange.new 0 20) 7, Span.new (ByteRange.new 20 35) 7]
    (Span.new (ByteRange.new 0 20) 7) (Span.new (ByteRange.new 20 35) 7)
    (by decide) (by decide) rfl

/-- C4: for two node lists with same-source resolved spans the merged span is
direction-independent — merging either way stores the same union span,
minimum start and maximum end on the shared source. -/
theorem claim_C4_merge_span_direction_independent (T : Type) (a b : AstNodes T)
    (spans : List Span) (sa sb : Span)
    (ha : a.span spans = .ok sa) (hb : b.span spans = .ok sb)
    (hsrc : sa.id = sb.id) :
    ∃ spans₁ spans₂,
      a.merge b spans = .ok (⟨a.nodes ++ b.nodes, a.id⟩, spans₁) ∧
      b.merge a spans = .ok (⟨b.nodes ++ a.nodes, b.id⟩, spans₂) ∧
      SpanMap.span_of spans₁ a.id = .ok (Span.new (ByteRange.new
        (min sa.range.start sb.range.start)
        (max sa.range.«end» sb.range.«end»)) sa.id) ∧
      SpanMap.span_of spans₂ b.id = .ok (Span.new (ByteRange.new
        (min sa.range.start sb.range.start)
        (max sa.range.«end» sb.range.«end»)) sa.id) := by
  obtain ⟨h1, h2⟩ := AstNodes.merge_spec a b spans sa sb ha hb hsrc
  obtain ⟨h1', h2'⟩ := AstNodes.merge_spec b a spans sb sa hb ha hsrc.symm
  have hspan : Span.new (ByteRange.new (min sa.range.start sb.range.start)
      (max sa.range.«end» sb.range.«end»)) sa.id =
      Span.new (ByteRange.new (min sb.range.start sa.range.start)
      (max sb.range.«end» sa.range.«end»)) sb.id := by
    unfold Span.new ByteRange.new
    rw [Nat.min_comm, Nat.max_comm, hsrc]
  refine ⟨_, _, h1, h1', h2, ?_⟩
  rw [hspan]
  exact h2'

/-- Witness for C4 on the spec's scenario spans `(0,20)` and `(20,35)` on
source `7`, merged in both directions. -/
theorem claim_C4_witness :
    ∃ spans₁ spans₂,
      AstNodes.merge (⟨[⟨(), 5⟩], 1⟩ : AstNodes Unit) ⟨[⟨(), 6⟩], 2⟩
        [Span.null, Span.new (ByteRange.new 0 20) 7,
          Span.new (ByteRange.new 20 35) 7] =
        .ok (⟨[⟨(), 5⟩] ++ [⟨(), 6⟩], 1⟩, spans₁) ∧
      AstNodes.merge (⟨[⟨(), 6⟩], 2⟩ : AstNodes Unit) ⟨[⟨(), 5⟩], 1⟩
        [Span.null, Span.new (ByteRange.new 0 20) 7,
          Span.new (ByteRange.new 20 35) 7] =
        .ok (⟨[⟨(), 6⟩] ++ [⟨(), 5⟩], 2⟩, spans₂) ∧
      SpanMap.span_of spans₁ 1 = .ok (Span.new (ByteRange.new
        (min (Span.new (ByteRange.new 0 20) 7).range.start
          (Span.new (ByteRange.new 20 35) 7).range.start)
        (max (Span.new (ByteRange.new 0 20) 7).range.«end»
          (Span.new (ByteRange.new 20 35) 7).range.«end»))
        (Span.new (ByteRange.new 0 20) 7).id) ∧
      SpanMap.span_of spans₂ 2 = .ok (Span.new (ByteRange.new
        (min (Span.new (ByteRange.new 0 20) 7).range.start
          (Span.new (ByteRange.new 20 35) 7).range.start)
        (max (Span.new (ByteRange.new 0 20) 7).range.«end»
          (Span.new (ByteRange.new 20 35) 7).range.«end»))
        (Span.new (ByteRange.new 0 20) 7).id) :=
  claim_C4_merge_span_direction_independent Unit ⟨[⟨(), 5⟩], 1⟩ ⟨[⟨(), 6⟩], 2⟩
    [Span.null, Span.new (ByteRange.new 0 20) 7, Span.new (ByteRange.new 20 35) 7]
    (Span.new (ByteRange.new 0 20) 7) (Span.new (ByteRange.new 20 35) 7)
    (by decide) (by decide) rfl

/-- C7 (amended): for every index at most the list's length,
`AstNodes::insert` places the node at that position and leaves the list's own
identity — and hence its resolved span-table entry — unchanged; an index
beyond the length panics instead (see the counterexample). -/
theorem claim_C7_insert_positional_frame (T : Type) (a : AstNodes T)
    (item : AstNode T) (index : Nat) (h : index ≤ a.nodes.length) :
    ∃ a', a.insert item index = .ok a' ∧
      a'.nodes = a.nodes.insertIdx index item ∧
      a'.nodes[index]? = some item ∧
      a'.id = a.id ∧
      ∀ spans : List Span, a'.span spans = a.span spans := by
  refine ⟨⟨a.nodes.insertIdx index item, a.id⟩, ?_, rfl, ?_, rfl, fun spans => rfl⟩
  · unfold AstNodes.insert
    rw [if_pos h]
  · have hlen : index < (a.nodes.insertIdx index item).length := by
      rw [List.length_insertIdx index _ h]
      omega
    rw [List.getElem?_eq_getElem hlen]
    exact congrArg some (List.getElem_insertIdx_self a.nodes item index h)

/-- Counterexample to C7 as stated over every index: inserting at index `1`
of an empty node list panics with an out-of-bounds index rather than placing
the node. -/
theorem claim_C7_counterexample :
    AstNodes.insert (⟨[], 0⟩ : AstNodes Unit) ⟨(), 0⟩ 1 = .error .indexOutOfBounds ∧
    ∀ a' : AstNodes Unit, AstNodes.insert (⟨[], 0⟩ : AstNodes Unit) ⟨(), 0⟩ 1 ≠ .ok a' := by
  have herr : AstNodes.insert (⟨[], 0⟩ : AstNodes Unit) ⟨(), 0⟩ 1 =
      .error .indexOutOfBounds := rfl
  exact ⟨herr, fun a' hc => Except.noConfusion (herr.symm.trans hc)⟩

/-- Witness for the amended C7: insert in the middle of a two-node list. -/
theorem claim_C7_witness :
    ∃ a', AstNodes.insert (⟨[⟨(), 4⟩, ⟨(), 5⟩], 9⟩ : AstNodes Unit) ⟨(), 6⟩ 1 = .ok a' ∧
      a'.nodes = ([⟨(), 4⟩, ⟨(), 5⟩] : List (AstNode Unit)).insertIdx 1 ⟨(), 6⟩ ∧
      a'.nodes[1]? = some ⟨(), 6⟩ ∧
      a'.id = ((⟨[⟨(), 4⟩, ⟨(), 5⟩], 9⟩ : AstNodes Unit)).id ∧
      ∀ spans : List Span, a'.span spans =
        AstNodes.span (⟨[⟨(), 4⟩, ⟨(), 5⟩], 9⟩ : AstNodes Unit) spans :=
  claim_C7_insert_positional_frame Unit ⟨[⟨(), 4⟩, ⟨(), 5⟩], 9⟩ ⟨(), 6⟩ 1 (by decide)
